import Mathlib

/-!
Verification of the rasterization and shading pipeline of the solar-system
software renderer (src/main.rs and src/shaders.rs).

The Rust f32 scalars are shallowly embedded as exact rationals (ℚ).  The two
transcendental primitives the shaders use (f32::sin and the FastNoiseLite
noise generator) are modelled as fixed computable rational-valued functions:
every claim settled here depends only on those functions being deterministic
total functions of their arguments, never on their numeric values.  Division
by zero in ℚ yields 0 (where f32 would yield inf/NaN); no claim below
exercises that corner.

Modules framebuffer.rs, triangle.rs, color.rs, fragment.rs and vertex.rs of
the repository are not under src/; their definitions below are modelled from
the specification (sections 3, 4.2 and 4.3) and carry doc comments starting
with "Modelled from the spec:".
-/

namespace Renderer

/-- Rational 2D vector, the shallow embedding of nalgebra_glm Vec2. -/
structure Vec2 where
  x : ℚ
  y : ℚ
deriving DecidableEq

/-- Rational 3D vector, the shallow embedding of nalgebra_glm Vec3. -/
structure Vec3 where
  x : ℚ
  y : ℚ
  z : ℚ
deriving DecidableEq

/-- Rational 4D vector, the shallow embedding of nalgebra_glm Vec4. -/
structure Vec4 where
  x : ℚ
  y : ℚ
  z : ℚ
  w : ℚ
deriving DecidableEq

/-- Dot product of two 3D vectors (nalgebra_glm dot). -/
def dot (a b : Vec3) : ℚ := a.x * b.x + a.y * b.y + a.z * b.z

/-- Computable stand-in for f32 square root on ℚ: exact on quotients of
perfect squares (the only square roots the claims depend on, e.g.
sqrt (9/4) = 3/2 for the rocky material light direction), an
integer-square-root approximation elsewhere. -/
def ratSqrt (q : ℚ) : ℚ := (Nat.sqrt q.num.toNat : ℚ) / (Nat.sqrt q.den : ℚ)

/-- Vector normalization v / |v| (nalgebra_glm normalize), with the f32
square root modelled by ratSqrt. -/
def Vec3.normalize (v : Vec3) : Vec3 :=
  let m := ratSqrt (dot v v)
  ⟨v.x / m, v.y / m, v.z / m⟩

/-- Computable deterministic stand-in for f32::sin (odd 7th-order
polynomial).  Claims depend only on it being a fixed total function. -/
def sinQ (q : ℚ) : ℚ := q - q ^ 3 / 6 + q ^ 5 / 120 - q ^ 7 / 5040

/-- Embedding of f32 clamp(lo, hi). -/
def clampQ (q lo hi : ℚ) : ℚ := max lo (min hi q)

/-- Fractional part of a rational, in [0, 1). -/
def fractQ (q : ℚ) : ℚ := q - ⌊q⌋

/-- Rational 3×3 matrix with explicit entries, the shallow embedding of
nalgebra_glm Mat3. -/
structure Mat3 where
  m11 : ℚ
  m12 : ℚ
  m13 : ℚ
  m21 : ℚ
  m22 : ℚ
  m23 : ℚ
  m31 : ℚ
  m32 : ℚ
  m33 : ℚ
deriving DecidableEq

/-- Transpose of a 3×3 matrix. -/
def Mat3.transpose (m : Mat3) : Mat3 :=
  ⟨m.m11, m.m21, m.m31, m.m12, m.m22, m.m32, m.m13, m.m23, m.m33⟩

/-- Determinant of a 3×3 matrix by cofactor expansion. -/
def Mat3.det (m : Mat3) : ℚ :=
  m.m11 * (m.m22 * m.m33 - m.m23 * m.m32)
    - m.m12 * (m.m21 * m.m33 - m.m23 * m.m31)
    + m.m13 * (m.m21 * m.m32 - m.m22 * m.m31)

/-- Matrix inverse by the adjugate-over-determinant formula (the formula
nalgebra uses for 3×3 inversion).  Total on ℚ; meaningful when det ≠ 0. -/
def Mat3.inverse (m : Mat3) : Mat3 :=
  let d := m.det
  ⟨(m.m22 * m.m33 - m.m23 * m.m32) / d,
   (m.m13 * m.m32 - m.m12 * m.m33) / d,
   (m.m12 * m.m23 - m.m13 * m.m22) / d,
   (m.m23 * m.m31 - m.m21 * m.m33) / d,
   (m.m11 * m.m33 - m.m13 * m.m31) / d,
   (m.m13 * m.m21 - m.m11 * m.m23) / d,
   (m.m21 * m.m32 - m.m22 * m.m31) / d,
   (m.m12 * m.m31 - m.m11 * m.m32) / d,
   (m.m11 * m.m22 - m.m12 * m.m21) / d⟩

/-- Embedding of nalgebra Mat3::try_inverse: none exactly when the matrix is
singular. -/
def Mat3.try_inverse (m : Mat3) : Option Mat3 :=
  if m.det = 0 then none else some m.inverse

/-- The 3×3 identity matrix (Mat3::identity). -/
def Mat3.identity : Mat3 := ⟨1, 0, 0, 0, 1, 0, 0, 0, 1⟩

/-- Matrix–vector product for 3×3 matrices. -/
def Mat3.mulVec3 (m : Mat3) (v : Vec3) : Vec3 :=
  ⟨m.m11 * v.x + m.m12 * v.y + m.m13 * v.z,
   m.m21 * v.x + m.m22 * v.y + m.m23 * v.z,
   m.m31 * v.x + m.m32 * v.y + m.m33 * v.z⟩

/-- Rational 4×4 matrix with explicit row-major entries, the shallow
embedding of nalgebra_glm Mat4. -/
structure Mat4 where
  a11 : ℚ
  a12 : ℚ
  a13 : ℚ
  a14 : ℚ
  a21 : ℚ
  a22 : ℚ
  a23 : ℚ
  a24 : ℚ
  a31 : ℚ
  a32 : ℚ
  a33 : ℚ
  a34 : ℚ
  a41 : ℚ
  a42 : ℚ
  a43 : ℚ
  a44 : ℚ
deriving DecidableEq

/-- The 4×4 identity matrix. -/
def Mat4.identity : Mat4 :=
  ⟨1, 0, 0, 0, 0, 1, 0, 0, 0, 0, 1, 0, 0, 0, 0, 1⟩

/-- Matrix–matrix product for 4×4 matrices. -/
def Mat4.mulMat (m n : Mat4) : Mat4 :=
  ⟨m.a11 * n.a11 + m.a12 * n.a21 + m.a13 * n.a31 + m.a14 * n.a41,
   m.a11 * n.a12 + m.a12 * n.a22 + m.a13 * n.a32 + m.a14 * n.a42,
   m.a11 * n.a13 + m.a12 * n.a23 + m.a13 * n.a33 + m.a14 * n.a43,
   m.a11 * n.a14 + m.a12 * n.a24 + m.a13 * n.a34 + m.a14 * n.a44,
   m.a21 * n.a11 + m.a22 * n.a21 + m.a23 * n.a31 + m.a24 * n.a41,
   m.a21 * n.a12 + m.a22 * n.a22 + m.a23 * n.a32 + m.a24 * n.a42,
   m.a21 * n.a13 + m.a22 * n.a23 + m.a23 * n.a33 + m.a24 * n.a43,
   m.a21 * n.a14 + m.a22 * n.a24 + m.a23 * n.a34 + m.a24 * n.a44,
   m.a31 * n.a11 + m.a32 * n.a21 + m.a33 * n.a31 + m.a34 * n.a41,
   m.a31 * n.a12 + m.a32 * n.a22 + m.a33 * n.a32 + m.a34 * n.a42,
   m.a31 * n.a13 + m.a32 * n.a23 + m.a33 * n.a33 + m.a34 * n.a43,
   m.a31 * n.a14 + m.a32 * n.a24 + m.a33 * n.a34 + m.a34 * n.a44,
   m.a41 * n.a11 + m.a42 * n.a21 + m.a43 * n.a31 + m.a44 * n.a41,
   m.a41 * n.a12 + m.a42 * n.a22 + m.a43 * n.a32 + m.a44 * n.a42,
   m.a41 * n.a13 + m.a42 * n.a23 + m.a43 * n.a33 + m.a44 * n.a43,
   m.a41 * n.a14 + m.a42 * n.a24 + m.a43 * n.a34 + m.a44 * n.a44⟩

/-- Matrix–vector product for 4×4 matrices on homogeneous vectors. -/
def Mat4.mulVec (m : Mat4) (v : Vec4) : Vec4 :=
  ⟨m.a11 * v.x + m.a12 * v.y + m.a13 * v.z + m.a14 * v.w,
   m.a21 * v.x + m.a22 * v.y + m.a23 * v.z + m.a24 * v.w,
   m.a31 * v.x + m.a32 * v.y + m.a33 * v.z + m.a34 * v.w,
   m.a41 * v.x + m.a42 * v.y + m.a43 * v.z + m.a44 * v.w⟩

/-- Upper-left 3×3 of a 4×4 matrix (nalgebra_glm mat4_to_mat3), used by
vertex_shader for the normal transform. -/
def mat4_to_mat3 (m : Mat4) : Mat3 :=
  ⟨m.a11, m.a12, m.a13, m.a21, m.a22, m.a23, m.a31, m.a32, m.a33⟩

/-- Modelled from the spec: color.rs is not under src/.  Per section 3, a
Color is three channels supporting lerp, scalar scaling and packing, with
every arithmetic result clamped into the valid channel range [0, 255].
Channels are kept as exact rationals. -/
structure Color where
  r : ℚ
  g : ℚ
  b : ℚ
deriving DecidableEq

/-- Clamp a channel value into the valid range [0, 255]. -/
def clamp255 (q : ℚ) : ℚ := max 0 (min 255 q)

/-- Modelled from the spec: Color construction from three channel values. -/
def Color.new (r g b : ℚ) : Color := ⟨r, g, b⟩

/-- Modelled from the spec: channel-wise linear interpolation between two
colors by a scalar, clamped into the valid range. -/
def Color.lerp (a other : Color) (t : ℚ) : Color :=
  ⟨clamp255 (a.r + (other.r - a.r) * t),
   clamp255 (a.g + (other.g - a.g) * t),
   clamp255 (a.b + (other.b - a.b) * t)⟩

/-- Modelled from the spec: channel-wise scaling of a color by a scalar
intensity, clamped into the valid range. -/
def Color.mulScalar (c : Color) (s : ℚ) : Color :=
  ⟨clamp255 (c.r * s), clamp255 (c.g * s), clamp255 (c.b * s)⟩

instance : HMul Color ℚ Color := ⟨Color.mulScalar⟩

/-- Modelled from the spec: conversion of a color to one packed integer for
buffer storage (0xRRGGBB). -/
def Color.to_hex (c : Color) : ℕ :=
  (⌊c.r⌋).toNat * 65536 + (⌊c.g⌋).toNat * 256 + (⌊c.b⌋).toNat

/-- Map a rational onto a pseudo-random value in [-1, 1). -/
def noiseVal (h : ℚ) : ℚ := 2 * fractQ h - 1

/-- Modelled from the spec: the noise primitive (fastnoise_lite) is out of
scope and treated as a black box — given 2 or 3 coordinates it returns a
deterministic value in a bounded range, repeatable for identical inputs and
seed.  It is embedded as a seed-indexed deterministic hash into [-1, 1). -/
structure FastNoiseLite where
  seed : ℤ
  noise_type : ℕ
deriving DecidableEq

/-- Modelled from the spec: FastNoiseLite::with_seed. -/
def FastNoiseLite.with_seed (s : ℤ) : FastNoiseLite := ⟨s, 0⟩

/-- Modelled from the spec: FastNoiseLite::set_noise_type, recording the
selected noise type tag. -/
def FastNoiseLite.set_noise_type (n : FastNoiseLite) (t : ℕ) : FastNoiseLite :=
  ⟨n.seed, t⟩

/-- Modelled from the spec: 2D noise sample, deterministic in seed and
coordinates, valued in [-1, 1). -/
def FastNoiseLite.get_noise_2d (n : FastNoiseLite) (x y : ℚ) : ℚ :=
  noiseVal ((n.seed : ℚ) + 157 * x + 113 * y + (n.noise_type : ℚ))

/-- Modelled from the spec: 3D noise sample, deterministic in seed and
coordinates, valued in [-1, 1). -/
def FastNoiseLite.get_noise_3d (n : FastNoiseLite) (x y z : ℚ) : ℚ :=
  noiseVal ((n.seed : ℚ) + 157 * x + 113 * y + 271 * z + (n.noise_type : ℚ))

/-- Embedding of create_cloud_noise (main.rs): a fresh noise generator with
the fixed seed 1337 and OpenSimplex2 noise (tagged 1 here). -/
def create_cloud_noise : FastNoiseLite :=
  (FastNoiseLite.with_seed 1337).set_noise_type 1

/-- Embedding of create_noise (main.rs). -/
def create_noise : FastNoiseLite := create_cloud_noise

/-- Modelled from the spec: vertex.rs is not under src/.  Field layout per
section 3 and the uses in shaders.rs: model-space position, normal, texture
coordinates, base color, plus the two post-transform fields. -/
structure Vertex where
  position : Vec3
  normal : Vec3
  tex_coords : Vec2
  color : Color
  transformed_position : Vec3
  transformed_normal : Vec3
deriving DecidableEq

/-- Embedding of the Uniforms struct (main.rs): per-draw-call matrices,
frame counter and noise source. -/
structure Uniforms where
  model_matrix : Mat4
  view_matrix : Mat4
  projection_matrix : Mat4
  viewport_matrix : Mat4
  time : ℕ
  noise : FastNoiseLite
deriving DecidableEq

/-- Modelled from the spec: fragment.rs is not under src/.  Field layout per
section 3 and the uses in shaders.rs and main.rs: screen position, depth,
interpolated normal, light intensity and the interpolated vertex-position
proxy. -/
structure Fragment where
  position : Vec2
  depth : ℚ
  normal : Vec3
  intensity : ℚ
  vertex_position : Vec3
deriving DecidableEq

/-- Embedding of vertex_shader (shaders.rs lines 12-45): full
model→view→projection→perspective-divide→viewport chain on the position and
inverse-transpose (with identity fallback) on the normal. -/
def vertex_shader (vertex : Vertex) (uniforms : Uniforms) : Vertex :=
  let position : Vec4 := ⟨vertex.position.x, vertex.position.y, vertex.position.z, 1⟩
  let transformed :=
    ((uniforms.projection_matrix.mulMat uniforms.view_matrix).mulMat
      uniforms.model_matrix).mulVec position
  let w := transformed.w
  let transformed_position : Vec4 :=
    ⟨transformed.x / w, transformed.y / w, transformed.z / w, 1⟩
  let screen_position := uniforms.viewport_matrix.mulVec transformed_position
  let model_mat3 := mat4_to_mat3 uniforms.model_matrix
  let normal_matrix := (model_mat3.transpose.try_inverse).getD Mat3.identity
  let transformed_normal := normal_matrix.mulVec3 vertex.normal
  { position := vertex.position
    normal := vertex.normal
    tex_coords := vertex.tex_coords
    color := vertex.color
    transformed_position := ⟨screen_position.x, screen_position.y, screen_position.z⟩
    transformed_normal := transformed_normal }

/-- Embedding of planeta_raro (shaders.rs). -/
def planeta_raro (fragment : Fragment) (uniforms : Uniforms) : Color :=
  let color_1 := Color.new 255 0 255
  let color_2 := Color.new 0 255 255
  let color_3 := Color.new 0 255 127
  let color_4 := Color.new 255 105 180
  let color_5 := Color.new 255 165 0
  let position := fragment.vertex_position
  let t := (uniforms.time : ℚ) * 0.04
  let swirl := sinQ (position.x * 10 + position.y * 10 + t)
  let noise_zoom : ℚ := 7
  let noise_value :=
    |uniforms.noise.get_noise_3d (position.x * noise_zoom) (position.y * noise_zoom)
      (position.z * noise_zoom + t)|
  let wave_value := sinQ (position.y * 12 + swirl * 5)
  let threshold_1 : ℚ := -0.6
  let threshold_2 : ℚ := -0.2
  let threshold_3 : ℚ := 0.2
  let threshold_4 : ℚ := 0.6
  let base_color :=
    if wave_value < threshold_1 then color_1.lerp color_2 noise_value
    else if wave_value < threshold_2 then color_2.lerp color_3 noise_value
    else if wave_value < threshold_3 then color_3.lerp color_4 noise_value
    else if wave_value < threshold_4 then color_4.lerp color_5 noise_value
    else color_5.lerp color_1 noise_value
  base_color * fragment.intensity

/-- Embedding of planeta_saturno (shaders.rs). -/
def planeta_saturno (fragment : Fragment) (uniforms : Uniforms) : Color :=
  let color_1 := Color.new 255 204 102
  let color_2 := Color.new 255 153 51
  let color_3 := Color.new 204 102 0
  let color_4 := Color.new 153 76 0
  let color_5 := Color.new 102 51 0
  let position := fragment.vertex_position
  let t := (uniforms.time : ℚ) * 0.02
  let pulsate := sinQ (t * 0.5) * 0.5
  let zoom : ℚ := 10
  let bands_value := sinQ (position.y * zoom + pulsate)
  let threshold_1 : ℚ := -0.8
  let threshold_2 : ℚ := -0.4
  let threshold_3 : ℚ := 0
  let threshold_4 : ℚ := 0.4
  let base_color :=
    if bands_value < threshold_1 then color_1
    else if bands_value < threshold_2 then color_2
    else if bands_value < threshold_3 then color_3
    else if bands_value < threshold_4 then color_4
    else color_5
  base_color * fragment.intensity

/-- Embedding of planeta_azul (shaders.rs). -/
def planeta_azul (fragment : Fragment) (uniforms : Uniforms) : Color :=
  let color_1 := Color.new 173 216 230
  let color_2 := Color.new 135 206 250
  let color_3 := Color.new 0 191 255
  let color_4 := Color.new 64 224 208
  let color_5 := Color.new 0 206 209
  let color_6 := Color.new 70 130 180
  let color_7 := Color.new 0 105 148
  let color_8 := Color.new 25 25 112
  let position := fragment.vertex_position
  let t := (uniforms.time : ℚ) * 0.02
  let pulsate := sinQ (t * 0.5) * 0.5
  let zoom : ℚ := 15
  let bands_value := sinQ (position.y * zoom + pulsate)
  let threshold_1 : ℚ := -0.8
  let threshold_2 : ℚ := -0.6
  let threshold_3 : ℚ := -0.4
  let threshold_4 : ℚ := -0.2
  let threshold_5 : ℚ := 0
  let threshold_6 : ℚ := 0.2
  let threshold_7 : ℚ := 0.4
  let threshold_8 : ℚ := 0.6
  let base_color :=
    if bands_value < threshold_1 then color_1
    else if bands_value < threshold_2 then color_2
    else if bands_value < threshold_3 then color_3
    else if bands_value < threshold_4 then color_4
    else if bands_value < threshold_5 then color_5
    else if bands_value < threshold_6 then color_6
    else if bands_value < threshold_7 then color_7
    else color_8
  base_color * fragment.intensity

/-- Embedding of planeta_celular (shaders.rs). -/
def planeta_celular (fragment : Fragment) (uniforms : Uniforms) : Color :=
  let ring_color_1 := Color.new 85 107 47
  let ring_color_2 := Color.new 124 252 0
  let ring_color_3 := Color.new 34 139 34
  let ring_color_4 := Color.new 173 255 47
  let position := fragment.vertex_position
  let t := (uniforms.time : ℚ) * 0.03
  let pulsate := sinQ (t * 0.5) * 0.2
  let zoom : ℚ := 600
  let noise_value :=
    |uniforms.noise.get_noise_2d ((position.x + pulsate) * zoom) (position.z * zoom + t)|
  let ring_threshold_1 : ℚ := 0.1
  let ring_threshold_2 : ℚ := 0.3
  let ring_threshold_3 : ℚ := 0.5
  let ring_threshold_4 : ℚ := 0.7
  let ring_color :=
    if noise_value < ring_threshold_1 then ring_color_1
    else if noise_value < ring_threshold_2 then ring_color_2
    else if noise_value < ring_threshold_3 then ring_color_3
    else ring_color_4
  ring_color * fragment.intensity

/-- Embedding of planeta_mancha (shaders.rs), the default-dispatch
material. -/
def planeta_mancha (fragment : Fragment) (uniforms : Uniforms) : Color :=
  let spot_color := Color.new 139 69 19
  let rock_base_color := Color.new 210 105 30
  let highlight_color := Color.new 255 140 0
  let dot_color := Color.new 255 222 173
  let position := fragment.vertex_position
  let t := (uniforms.time : ℚ) * 0.03
  let pulsate := sinQ (t * 0.6) * 0.5 + 0.5
  let rock_zoom : ℚ := 15
  let rock_noise_value :=
    |uniforms.noise.get_noise_3d (position.x * rock_zoom) (position.y * rock_zoom)
      (position.z * rock_zoom)|
  let spot_zoom : ℚ := 15
  let spot_noise_value :=
    |uniforms.noise.get_noise_2d (position.x * spot_zoom) (position.y * spot_zoom)|
  let spot_threshold := 0.2 * pulsate
  let dots_zoom : ℚ := 50
  let dots_noise_value :=
    |uniforms.noise.get_noise_2d (position.x * dots_zoom) (position.y * dots_zoom)|
  let dots_threshold : ℚ := 0.05
  let base_color :=
    if spot_noise_value < spot_threshold then spot_color.lerp rock_base_color rock_noise_value
    else rock_base_color.lerp highlight_color rock_noise_value
  let final_color :=
    if dots_noise_value < dots_threshold then dot_color
    else base_color
  final_color * fragment.intensity

/-- Embedding of sol (shaders.rs). -/
def sol (fragment : Fragment) (uniforms : Uniforms) : Color :=
  let core_color := Color.new 255 255 200
  let mid_color := Color.new 255 223 0
  let corona_color := Color.new 255 140 0
  let position : Vec3 :=
    ⟨fragment.vertex_position.x, fragment.vertex_position.y, fragment.depth⟩
  let base_frequency : ℚ := 0.5
  let pulsate_amplitude : ℚ := 0.6
  let t := (uniforms.time : ℚ) * 0.02
  let pulsate := sinQ (t * base_frequency) * pulsate_amplitude
  let zoom : ℚ := 1000
  let noise_value1 :=
    uniforms.noise.get_noise_3d (position.x * zoom) (position.y * zoom)
      ((position.z + pulsate) * zoom)
  let noise_value2 :=
    uniforms.noise.get_noise_3d ((position.x + 1000) * zoom) ((position.y + 1000) * zoom)
      ((position.z + 1000 + pulsate) * zoom)
  let noise_value := (noise_value1 + noise_value2) * 0.5
  let blended_color :=
    (core_color.lerp mid_color |noise_value|).lerp corona_color
      (clampQ (noise_value * 0.5 + 0.5) 0 1)
  blended_color * fragment.intensity

/-- Embedding of planeta_rocoso (shaders.rs lines 313-373): the only
material that reads the fragment normal, blending a fixed-light diffuse term
into its banded base color. -/
def planeta_rocoso (fragment : Fragment) (uniforms : Uniforms) : Color :=
  let color_1 := Color.new 245 222 179
  let color_2 := Color.new 222 184 135
  let color_3 := Color.new 210 180 140
  let color_4 := Color.new 188 143 143
  let color_5 := Color.new 205 133 63
  let color_6 := Color.new 139 69 19
  let color_7 := Color.new 160 82 45
  let position : Vec3 :=
    ⟨fragment.vertex_position.x, fragment.vertex_position.y, fragment.depth⟩
  let t := (uniforms.time : ℚ) * 0.01
  let pulsate := sinQ (t * 0.5) * 0.1
  let zoom : ℚ := 1000
  let noise_value1 :=
    uniforms.noise.get_noise_3d ((position.x + pulsate) * zoom) ((position.y + pulsate) * zoom)
      (position.z * zoom + t)
  let noise_value2 :=
    uniforms.noise.get_noise_3d ((position.x + 1000 + pulsate) * zoom)
      ((position.y + 1000 + pulsate) * zoom) (position.z * zoom + t)
  let noise_value := (noise_value1 + noise_value2) * 0.5
  let stone_threshold_1 : ℚ := -0.4
  let stone_threshold_2 : ℚ := -0.2
  let stone_threshold_3 : ℚ := 0
  let stone_threshold_4 : ℚ := 0.2
  let stone_threshold_5 : ℚ := 0.4
  let stone_threshold_6 : ℚ := 0.6
  let base_color :=
    if noise_value > stone_threshold_6 then color_1
    else if noise_value > stone_threshold_5 then color_2
    else if noise_value > stone_threshold_4 then color_3
    else if noise_value > stone_threshold_3 then color_4
    else if noise_value > stone_threshold_2 then color_5
    else if noise_value > stone_threshold_1 then color_6
    else color_7
  let light_dir := Vec3.normalize ⟨1, 1, 0.5⟩
  let diffuse_intensity := max (dot light_dir fragment.normal) 0
  let final_color := base_color * (0.6 + 0.4 * diffuse_intensity)
  final_color * fragment.intensity

/-- Embedding of planeta_gaseoso (shaders.rs). -/
def planeta_gaseoso (fragment : Fragment) (uniforms : Uniforms) : Color :=
  let cloud_color := Color.new 255 255 255
  let fog_color := Color.new 120 120 120
  let position : Vec3 :=
    ⟨fragment.vertex_position.x, fragment.vertex_position.y, fragment.depth⟩
  let t := (uniforms.time : ℚ) * 0.01
  let pulsate := sinQ (t * 0.3) * 0.5
  let zoom : ℚ := 200
  let noise_value1 :=
    uniforms.noise.get_noise_3d ((position.x + pulsate) * zoom) ((position.y + pulsate) * zoom)
      (position.z * zoom + t)
  let noise_value2 :=
    uniforms.noise.get_noise_3d ((position.x - pulsate) * zoom) ((position.y - pulsate) * zoom)
      (position.z * zoom - t)
  let noise_value := (noise_value1 + noise_value2) * 0.5
  let gradient := clampQ (1 - |position.y|) 0 1
  let final_color := (cloud_color.lerp fog_color |noise_value|).lerp fog_color (1 - gradient)
  final_color * fragment.intensity

/-- Embedding of planeta_arcilla (shaders.rs). -/
def planeta_arcilla (fragment : Fragment) (uniforms : Uniforms) : Color :=
  let color_1 := Color.new 173 216 230
  let color_2 := Color.new 135 206 250
  let color_3 := Color.new 70 130 180
  let color_4 := Color.new 30 144 255
  let color_5 := Color.new 0 105 148
  let position : Vec3 :=
    ⟨fragment.vertex_position.x, fragment.vertex_position.y, fragment.depth⟩
  let t := (uniforms.time : ℚ) * 0.02
  let pulsate := sinQ (t * 0.3) * 0.3
  let zoom : ℚ := 500
  let noise_value1 :=
    uniforms.noise.get_noise_3d ((position.x + pulsate) * zoom) ((position.y + pulsate) * zoom)
      (position.z * zoom + t)
  let noise_value2 :=
    uniforms.noise.get_noise_3d ((position.x - pulsate) * zoom) ((position.y - pulsate) * zoom)
      (position.z * zoom - t)
  let noise_value := (noise_value1 + noise_value2) * 0.5
  let gradient := clampQ (1 - |position.y|) 0 1
  let threshold_1 : ℚ := -0.2
  let threshold_2 : ℚ := 0
  let threshold_3 : ℚ := 0.2
  let threshold_4 : ℚ := 0.4
  let base_color :=
    if noise_value > threshold_4 then color_1
    else if noise_value > threshold_3 then color_2
    else if noise_value > threshold_2 then color_3
    else if noise_value > threshold_1 then color_4
    else color_5
  let final_color := (base_color.lerp color_5 (1 - gradient)) * fragment.intensity
  final_color

/-- Embedding of planeta_neon (shaders.rs). -/
def planeta_neon (fragment : Fragment) (uniforms : Uniforms) : Color :=
  let color_1 := Color.new 255 20 147
  let color_2 := Color.new 0 191 255
  let color_3 := Color.new 50 205 50
  let color_4 := Color.new 255 255 0
  let color_5 := Color.new 75 0 130
  let position := fragment.vertex_position
  let t := (uniforms.time : ℚ) * 0.04
  let wave_movement := sinQ (position.x * 10 + position.y * 10 + t)
  let zoom : ℚ := 10
  let wave_value := sinQ (position.x * zoom + wave_movement)
  let threshold_1 : ℚ := -0.8
  let threshold_2 : ℚ := -0.4
  let threshold_3 : ℚ := 0
  let threshold_4 : ℚ := 0.4
  let base_color :=
    if wave_value < threshold_1 then color_1
    else if wave_value < threshold_2 then color_2
    else if wave_value < threshold_3 then color_3
    else if wave_value < threshold_4 then color_4
    else color_5
  base_color * fragment.intensity

/-- Embedding of fragment_shader (shaders.rs lines 47-61): dispatch on the
material selector with planeta_mancha as the wildcard default.  The u8
selector is embedded as ℕ. -/
def fragment_shader (fragment : Fragment) (uniforms : Uniforms) (current_shader : ℕ) : Color :=
  match current_shader with
  | 0 => planeta_neon fragment uniforms
  | 1 => planeta_raro fragment uniforms
  | 2 => planeta_saturno fragment uniforms
  | 3 => planeta_azul fragment uniforms
  | 4 => planeta_celular fragment uniforms
  | 5 => planeta_mancha fragment uniforms
  | 6 => sol fragment uniforms
  | 7 => planeta_rocoso fragment uniforms
  | 8 => planeta_gaseoso fragment uniforms
  | 9 => planeta_arcilla fragment uniforms
  | _ => planeta_mancha fragment uniforms

/-- Modelled from the spec: framebuffer.rs is not under src/.  Per sections
3 and 4.3: a pixel color buffer and a parallel depth buffer of the same
width×height, a stateful current draw color, and a background color.  Both
buffers are modelled as total functions on coordinates; a depth entry of
none is the maximal "cleared" sentinel that every finite depth beats. -/
structure Framebuffer where
  width : ℕ
  height : ℕ
  buffer : ℕ → ℕ → ℕ
  zbuffer : ℕ → ℕ → Option ℚ
  current_color : ℕ
  background_color : ℕ

/-- Modelled from the spec: clear() resets every pixel to the background
color and every depth entry to the maximal sentinel. -/
def Framebuffer.clear (fb : Framebuffer) : Framebuffer :=
  { fb with buffer := fun _ _ => fb.background_color, zbuffer := fun _ _ => none }

/-- Modelled from the spec: set_current_color sets the stateful draw color
used by subsequent point writes. -/
def Framebuffer.set_current_color (fb : Framebuffer) (c : ℕ) : Framebuffer :=
  { fb with current_color := c }

/-- Depth test against the stored depth entry: the cleared sentinel (none)
always passes, a stored depth passes only for a strictly nearer candidate
("closer wins"). -/
def zpass (d : ℚ) : Option ℚ → Bool
  | none => true
  | some stored => decide (d < stored)

/-- Modelled from the spec: point(x, y, depth) writes the current color and
depth when (x, y) is in bounds and the depth test passes, and is a silent
no-op otherwise. -/
def Framebuffer.point (fb : Framebuffer) (x y : ℕ) (depth : ℚ) : Framebuffer :=
  if x < fb.width ∧ y < fb.height ∧ zpass depth (fb.zbuffer x y) = true then
    { fb with
        buffer := fun i j => if i = x ∧ j = y then fb.current_color else fb.buffer i j,
        zbuffer := fun i j => if i = x ∧ j = y then some depth else fb.zbuffer i j }
  else fb

/-- One depth-tested point write: the target pixel, the submitted depth and
the draw color set immediately before the write (the set-color-then-point
protocol render uses). -/
structure PointWrite where
  x : ℕ
  y : ℕ
  depth : ℚ
  color : ℕ
deriving DecidableEq

/-- Perform one write through the framebuffer protocol: set the current
color, then depth-tested point. -/
def draw (fb : Framebuffer) (w : PointWrite) : Framebuffer :=
  (fb.set_current_color w.color).point w.x w.y w.depth

/-- Apply a finite sequence of depth-tested point writes in order. -/
def applyWrites (fb : Framebuffer) (ws : List PointWrite) : Framebuffer :=
  ws.foldl draw fb

/-- Signed edge function of the segment a→b evaluated at p (twice the signed
area of the triangle a b p). -/
def edge_fn (a b p : Vec2) : ℚ :=
  (b.x - a.x) * (p.y - a.y) - (b.y - a.y) * (p.x - a.x)

/-- Inside test of the rasterizer: a point is covered by the triangle iff
all three edge-function values have the same sign or are zero. -/
def covered (a b c p : Vec2) : Bool :=
  let w1 := edge_fn b c p
  let w2 := edge_fn c a p
  let w3 := edge_fn a b p
  (decide (0 ≤ w1) && decide (0 ≤ w2) && decide (0 ≤ w3)) ||
    (decide (w1 ≤ 0) && decide (w2 ≤ 0) && decide (w3 ≤ 0))

/-- Fixed light direction of the rasterizer's per-fragment intensity.  The
spec fixes no constant for it; no claim depends on its value. -/
def light_direction_raster : Vec3 := ⟨0, 0, 1⟩

/-- Modelled from the spec: the per-pixel candidate of the rasterizer — the
inside test at one integer pixel and, when covered, the fragment with
barycentrically interpolated depth, normal and vertex-position proxy plus
the clamped-non-negative diffuse intensity of the renormalized interpolated
normal. -/
def raster_candidate (v1 v2 v3 : Vertex) (x y : ℕ) : Option Fragment :=
  let a := v1.transformed_position
  let b := v2.transformed_position
  let c := v3.transformed_position
  let a2 : Vec2 := ⟨a.x, a.y⟩
  let b2 : Vec2 := ⟨b.x, b.y⟩
  let c2 : Vec2 := ⟨c.x, c.y⟩
  let area := edge_fn a2 b2 c2
  let p : Vec2 := ⟨(x : ℚ), (y : ℚ)⟩
  if covered a2 b2 c2 p then
    let w1 := edge_fn b2 c2 p / area
    let w2 := edge_fn c2 a2 p / area
    let w3 := edge_fn a2 b2 p / area
    let depth := w1 * a.z + w2 * b.z + w3 * c.z
    let normal := Vec3.normalize
      ⟨w1 * v1.transformed_normal.x + w2 * v2.transformed_normal.x +
         w3 * v3.transformed_normal.x,
       w1 * v1.transformed_normal.y + w2 * v2.transformed_normal.y +
         w3 * v3.transformed_normal.y,
       w1 * v1.transformed_normal.z + w2 * v2.transformed_normal.z +
         w3 * v3.transformed_normal.z⟩
    let vertex_position : Vec3 :=
      ⟨w1 * v1.position.x + w2 * v2.position.x + w3 * v3.position.x,
       w1 * v1.position.y + w2 * v2.position.y + w3 * v3.position.y,
       w1 * v1.position.z + w2 * v2.position.z + w3 * v3.position.z⟩
    let intensity := max 0 (dot normal light_direction_raster)
    some ⟨⟨(x : ℚ), (y : ℚ)⟩, depth, normal, intensity, vertex_position⟩
  else none

/-- Modelled from the spec: triangle.rs is not under src/.  Per section 4.2:
bounding box of the three screen-space vertices clamped to non-negative
integers, one candidate per pixel in that box, edge-function inside test
(degenerate triangles produce no fragments), with attributes interpolated by
raster_candidate. -/
def triangle (v1 v2 v3 : Vertex) : List Fragment :=
  let a := v1.transformed_position
  let b := v2.transformed_position
  let c := v3.transformed_position
  let a2 : Vec2 := ⟨a.x, a.y⟩
  let b2 : Vec2 := ⟨b.x, b.y⟩
  let c2 : Vec2 := ⟨c.x, c.y⟩
  let min_x : ℕ := (⌊min a.x (min b.x c.x)⌋).toNat
  let max_x : ℕ := (⌈max a.x (max b.x c.x)⌉).toNat
  let min_y : ℕ := (⌊min a.y (min b.y c.y)⌋).toNat
  let max_y : ℕ := (⌈max a.y (max b.y c.y)⌉).toNat
  let area := edge_fn a2 b2 c2
  if area = 0 then []
  else
    (List.range (max_x + 1 - min_x)).flatMap fun dx =>
      (List.range (max_y + 1 - min_y)).filterMap fun dy =>
        raster_candidate v1 v2 v3 (min_x + dx) (min_y + dy)

/-- Embedding of the triangle-grouping loop of render (main.rs lines
111-120): consecutive disjoint triples in input order; a trailing partial
triple is discarded. -/
def group_triangles {α : Type} : List α → List (α × α × α)
  | a :: b :: c :: rest => (a, b, c) :: group_triangles rest
  | _ => []

/-- Embedding of the Rust `as usize` cast on an f32 pixel coordinate:
truncation toward zero with negative values saturating to 0. -/
def toUsize (q : ℚ) : ℕ := (⌊q⌋).toNat

/-- Embedding of render (main.rs lines 104-138): vertex transform, triangle
grouping, rasterization, then per-fragment screen-bounds filtering,
shading and the depth-tested framebuffer write. -/
def render (framebuffer : Framebuffer) (uniforms : Uniforms) (vertex_array : List Vertex)
    (current_shader : ℕ) : Framebuffer :=
  let transformed_vertices := vertex_array.map fun v => vertex_shader v uniforms
  let triangles := group_triangles transformed_vertices
  let fragments := triangles.flatMap fun tri => triangle tri.1 tri.2.1 tri.2.2
  fragments.foldl
    (fun fb fragment =>
      let x := toUsize fragment.position.x
      let y := toUsize fragment.position.y
      if x < fb.width ∧ y < fb.height then
        let shaded_color := fragment_shader fragment uniforms current_shader
        let color := shaded_color.to_hex
        (fb.set_current_color color).point x y fragment.depth
      else fb)
    framebuffer

/-- Extraction, for comparison in the rocky-material claim, of the
threshold-banded base color computed by planeta_rocoso before its lighting
combination (shaders.rs lines 314-365). -/
def rocoso_base_color (fragment : Fragment) (uniforms : Uniforms) : Color :=
  let color_1 := Color.new 245 222 179
  let color_2 := Color.new 222 184 135
  let color_3 := Color.new 210 180 140
  let color_4 := Color.new 188 143 143
  let color_5 := Color.new 205 133 63
  let color_6 := Color.new 139 69 19
  let color_7 := Color.new 160 82 45
  let position : Vec3 :=
    ⟨fragment.vertex_position.x, fragment.vertex_position.y, fragment.depth⟩
  let t := (uniforms.time : ℚ) * 0.01
  let pulsate := sinQ (t * 0.5) * 0.1
  let zoom : ℚ := 1000
  let noise_value1 :=
    uniforms.noise.get_noise_3d ((position.x + pulsate) * zoom) ((position.y + pulsate) * zoom)
      (position.z * zoom + t)
  let noise_value2 :=
    uniforms.noise.get_noise_3d ((position.x + 1000 + pulsate) * zoom)
      ((position.y + 1000 + pulsate) * zoom) (position.z * zoom + t)
  let noise_value := (noise_value1 + noise_value2) * 0.5
  let stone_threshold_1 : ℚ := -0.4
  let stone_threshold_2 : ℚ := -0.2
  let stone_threshold_3 : ℚ := 0
  let stone_threshold_4 : ℚ := 0.2
  let stone_threshold_5 : ℚ := 0.4
  let stone_threshold_6 : ℚ := 0.6
  if noise_value > stone_threshold_6 then color_1
  else if noise_value > stone_threshold_5 then color_2
  else if noise_value > stone_threshold_4 then color_3
  else if noise_value > stone_threshold_3 then color_4
  else if noise_value > stone_threshold_2 then color_5
  else if noise_value > stone_threshold_1 then color_6
  else color_7

/-- Concrete fragment used by witnesses. -/
def fragEx : Fragment := ⟨⟨0, 0⟩, 1/2, ⟨0, 0, 1⟩, 1, ⟨0, 0, 0⟩⟩

/-- Concrete fragment differing from fragEx only in the normal. -/
def fragExOtherNormal : Fragment := ⟨⟨0, 0⟩, 1/2, ⟨1, 0, 0⟩, 1, ⟨0, 0, 0⟩⟩

/-- Concrete uniforms with identity matrices and the fixed-seed noise. -/
def uniEx : Uniforms :=
  ⟨Mat4.identity, Mat4.identity, Mat4.identity, Mat4.identity, 0, create_noise⟩

/-- Concrete uniforms agreeing with uniEx on time and noise but with a
different model matrix. -/
def uniExOtherModel : Uniforms :=
  ⟨⟨2, 0, 0, 0, 0, 2, 0, 0, 0, 0, 2, 0, 0, 0, 0, 1⟩,
   Mat4.identity, Mat4.identity, Mat4.identity, 0, create_noise⟩

/-- Concrete vertex used by witnesses. -/
def vertEx : Vertex :=
  ⟨⟨0, 0, 0⟩, ⟨1, 2, 3⟩, ⟨0, 0⟩, Color.new 255 0 0, ⟨0, 0, 0⟩, ⟨0, 0, 0⟩⟩

/-- Concrete uniforms whose model matrix has a singular upper 3×3 block. -/
def uniSingular : Uniforms :=
  ⟨⟨0, 0, 0, 0, 0, 0, 0, 0, 0, 0, 0, 0, 0, 0, 0, 1⟩,
   Mat4.identity, Mat4.identity, Mat4.identity, 0, create_noise⟩

/-- The depth-test transition of a single observed pixel cell
(color, stored depth) under one point write, extracted from
Framebuffer.point for reasoning about write sequences. -/
def cellStep (px py : ℕ) (s : ℕ × Option ℚ) (w : PointWrite) : ℕ × Option ℚ :=
  if px = w.x ∧ py = w.y ∧ zpass w.depth s.2 = true then (w.color, some w.depth) else s

/-- Concrete 2×2 framebuffer used by witnesses and counterexamples. -/
def fbEx : Framebuffer := ⟨2, 2, fun _ _ => 0, fun _ _ => none, 0, 0⟩

/-- Concrete vertex whose screen-space position (-1, -1) lies outside the
2×2 screen; part of a triangle covering in-bounds pixels. -/
def vertA : Vertex :=
  ⟨⟨-1, -1, 1/2⟩, ⟨0, 0, 1⟩, ⟨0, 0⟩, Color.new 255 255 255, ⟨0, 0, 0⟩, ⟨0, 0, 0⟩⟩

/-- Concrete vertex whose screen-space position (2, -1) lies outside the
2×2 screen; part of a triangle covering in-bounds pixels. -/
def vertB : Vertex :=
  ⟨⟨2, -1, 1/2⟩, ⟨0, 0, 1⟩, ⟨0, 0⟩, Color.new 255 255 255, ⟨0, 0, 0⟩, ⟨0, 0, 0⟩⟩

/-- Concrete vertex whose screen-space position (-1, 2) lies outside the
2×2 screen; part of a triangle covering in-bounds pixels. -/
def vertC : Vertex :=
  ⟨⟨-1, 2, 1/2⟩, ⟨0, 0, 1⟩, ⟨0, 0⟩, Color.new 255 255 255, ⟨0, 0, 0⟩, ⟨0, 0, 0⟩⟩

/-- Concrete vertex at screen-space (5, 5), fully right of and below the
2×2 screen. -/
def vertFarA : Vertex :=
  ⟨⟨5, 5, 1/2⟩, ⟨0, 0, 1⟩, ⟨0, 0⟩, Color.new 255 255 255, ⟨0, 0, 0⟩, ⟨0, 0, 0⟩⟩

/-- Concrete vertex at screen-space (7, 5), fully right of and below the
2×2 screen. -/
def vertFarB : Vertex :=
  ⟨⟨7, 5, 1/2⟩, ⟨0, 0, 1⟩, ⟨0, 0⟩, Color.new 255 255 255, ⟨0, 0, 0⟩, ⟨0, 0, 0⟩⟩

/-- Concrete vertex at screen-space (5, 7), fully right of and below the
2×2 screen. -/
def vertFarC : Vertex :=
  ⟨⟨5, 7, 1/2⟩, ⟨0, 0, 1⟩, ⟨0, 0⟩, Color.new 255 255 255, ⟨0, 0, 0⟩, ⟨0, 0, 0⟩⟩

/-- Dispatch helper: every selector of value at least 10 falls through the
wildcard arm of fragment_shader to planeta_mancha. -/
theorem fragment_shader_ge_ten (fragment : Fragment) (uniforms : Uniforms) (s : ℕ)
    (h : 10 ≤ s) :
    fragment_shader fragment uniforms s = planeta_mancha fragment uniforms := by
  rcases s with _|_|_|_|_|_|_|_|_|_|s
  all_goals first
    | rfl
    | omega

/-- C3: for every fragment and uniforms, fragment_shader called with a
material selector outside the recognized values 0-9 (in particular 11) does
not fail and returns exactly the color of the designated default material
(planeta_mancha) on identical inputs. -/
theorem fragment_shader_fallback_default (fragment : Fragment) (uniforms : Uniforms)
    (s : ℕ) (h : 10 ≤ s) :
    fragment_shader fragment uniforms s = planeta_mancha fragment uniforms :=
  fragment_shader_ge_ten fragment uniforms s h

/-- Witness for C3 at selector 11 on concrete inputs. -/
theorem fragment_shader_fallback_default_witness :
    10 ≤ 11 ∧ fragment_shader fragEx uniEx 11 = planeta_mancha fragEx uniEx :=
  ⟨by decide, fragment_shader_fallback_default fragEx uniEx 11 (by decide)⟩

/-- C9: for every selector value s ≥ 10, fragment_shader returns exactly the
color of the selector-5 material on identical inputs — the default fallback
coincides with selector 5, both dispatching to planeta_mancha. -/
theorem fragment_shader_default_matches_selector5 (fragment : Fragment)
    (uniforms : Uniforms) (s : ℕ) (h : 10 ≤ s) :
    fragment_shader fragment uniforms s = fragment_shader fragment uniforms 5 :=
  fragment_shader_ge_ten fragment uniforms s h

/-- Witness for C9 at selector 10 on concrete inputs. -/
theorem fragment_shader_default_matches_selector5_witness :
    10 ≤ 10 ∧ fragment_shader fragEx uniEx 10 = fragment_shader fragEx uniEx 5 :=
  ⟨by decide, fragment_shader_default_matches_selector5 fragEx uniEx 10 (by decide)⟩

/-- Congruence of planeta_neon in the fragment fields and uniform fields it
reads. -/
theorem planeta_neon_congr (f₁ f₂ : Fragment) (u₁ u₂ : Uniforms)
    (hv : f₁.vertex_position = f₂.vertex_position) (hi : f₁.intensity = f₂.intensity)
    (ht : u₁.time = u₂.time) :
    planeta_neon f₁ u₁ = planeta_neon f₂ u₂ := by
  simp only [planeta_neon, hv, hi, ht]

/-- Congruence of planeta_raro in the fragment fields and uniform fields it
reads. -/
theorem planeta_raro_congr (f₁ f₂ : Fragment) (u₁ u₂ : Uniforms)
    (hv : f₁.vertex_position = f₂.vertex_position) (hi : f₁.intensity = f₂.intensity)
    (ht : u₁.time = u₂.time) (hn : u₁.noise = u₂.noise) :
    planeta_raro f₁ u₁ = planeta_raro f₂ u₂ := by
  simp only [planeta_raro, hv, hi, ht, hn]

/-- Congruence of planeta_saturno in the fragment fields and uniform fields
it reads. -/
theorem planeta_saturno_congr (f₁ f₂ : Fragment) (u₁ u₂ : Uniforms)
    (hv : f₁.vertex_position = f₂.vertex_position) (hi : f₁.intensity = f₂.intensity)
    (ht : u₁.time = u₂.time) :
    planeta_saturno f₁ u₁ = planeta_saturno f₂ u₂ := by
  simp only [planeta_saturno, hv, hi, ht]

/-- Congruence of planeta_azul in the fragment fields and uniform fields it
reads. -/
theorem planeta_azul_congr (f₁ f₂ : Fragment) (u₁ u₂ : Uniforms)
    (hv : f₁.vertex_position = f₂.vertex_position) (hi : f₁.intensity = f₂.intensity)
    (ht : u₁.time = u₂.time) :
    planeta_azul f₁ u₁ = planeta_azul f₂ u₂ := by
  simp only [planeta_azul, hv, hi, ht]

/-- Congruence of planeta_celular in the fragment fields and uniform fields
it reads. -/
theorem planeta_celular_congr (f₁ f₂ : Fragment) (u₁ u₂ : Uniforms)
    (hv : f₁.vertex_position = f₂.vertex_position) (hi : f₁.intensity = f₂.intensity)
    (ht : u₁.time = u₂.time) (hn : u₁.noise = u₂.noise) :
    planeta_celular f₁ u₁ = planeta_celular f₂ u₂ := by
  simp only [planeta_celular, hv, hi, ht, hn]

/-- Congruence of planeta_mancha in the fragment fields and uniform fields
it reads. -/
theorem planeta_mancha_congr (f₁ f₂ : Fragment) (u₁ u₂ : Uniforms)
    (hv : f₁.vertex_position = f₂.vertex_position) (hi : f₁.intensity = f₂.intensity)
    (ht : u₁.time = u₂.time) (hn : u₁.noise = u₂.noise) :
    planeta_mancha f₁ u₁ = planeta_mancha f₂ u₂ := by
  simp only [planeta_mancha, hv, hi, ht, hn]

/-- Congruence of sol in the fragment fields and uniform fields it reads. -/
theorem sol_congr (f₁ f₂ : Fragment) (u₁ u₂ : Uniforms)
    (hv : f₁.vertex_position = f₂.vertex_position) (hd : f₁.depth = f₂.depth)
    (hi : f₁.intensity = f₂.intensity)
    (ht : u₁.time = u₂.time) (hn : u₁.noise = u₂.noise) :
    sol f₁ u₁ = sol f₂ u₂ := by
  simp only [sol, hv, hd, hi, ht, hn]

/-- Congruence of planeta_rocoso in the fragment fields (including the
normal) and uniform fields it reads. -/
theorem planeta_rocoso_congr (f₁ f₂ : Fragment) (u₁ u₂ : Uniforms)
    (hv : f₁.vertex_position = f₂.vertex_position) (hd : f₁.depth = f₂.depth)
    (hnr : f₁.normal = f₂.normal) (hi : f₁.intensity = f₂.intensity)
    (ht : u₁.time = u₂.time) (hn : u₁.noise = u₂.noise) :
    planeta_rocoso f₁ u₁ = planeta_rocoso f₂ u₂ := by
  simp only [planeta_rocoso, hv, hd, hnr, hi, ht, hn]

/-- Congruence of planeta_gaseoso in the fragment fields and uniform fields
it reads. -/
theorem planeta_gaseoso_congr (f₁ f₂ : Fragment) (u₁ u₂ : Uniforms)
    (hv : f₁.vertex_position = f₂.vertex_position) (hd : f₁.depth = f₂.depth)
    (hi : f₁.intensity = f₂.intensity)
    (ht : u₁.time = u₂.time) (hn : u₁.noise = u₂.noise) :
    planeta_gaseoso f₁ u₁ = planeta_gaseoso f₂ u₂ := by
  simp only [planeta_gaseoso, hv, hd, hi, ht, hn]

/-- Congruence of planeta_arcilla in the fragment fields and uniform fields
it reads. -/
theorem planeta_arcilla_congr (f₁ f₂ : Fragment) (u₁ u₂ : Uniforms)
    (hv : f₁.vertex_position = f₂.vertex_position) (hd : f₁.depth = f₂.depth)
    (hi : f₁.intensity = f₂.intensity)
    (ht : u₁.time = u₂.time) (hn : u₁.noise = u₂.noise) :
    planeta_arcilla f₁ u₁ = planeta_arcilla f₂ u₂ := by
  simp only [planeta_arcilla, hv, hd, hi, ht, hn]

/-- C4: every material, through fragment_shader, is a deterministic function
of the fragment, the frame time and the (fixed-seed) noise source: two
invocations with identical such inputs — regardless of the remaining uniform
fields — produce identical colors. -/
theorem fragment_shader_deterministic (f₁ f₂ : Fragment) (u₁ u₂ : Uniforms) (s : ℕ)
    (hf : f₁ = f₂) (ht : u₁.time = u₂.time) (hn : u₁.noise = u₂.noise) :
    fragment_shader f₁ u₁ s = fragment_shader f₂ u₂ s := by
  subst hf
  rcases s with _|_|_|_|_|_|_|_|_|_|s
  · exact planeta_neon_congr f₁ f₁ u₁ u₂ rfl rfl ht
  · exact planeta_raro_congr f₁ f₁ u₁ u₂ rfl rfl ht hn
  · exact planeta_saturno_congr f₁ f₁ u₁ u₂ rfl rfl ht
  · exact planeta_azul_congr f₁ f₁ u₁ u₂ rfl rfl ht
  · exact planeta_celular_congr f₁ f₁ u₁ u₂ rfl rfl ht hn
  · exact planeta_mancha_congr f₁ f₁ u₁ u₂ rfl rfl ht hn
  · exact sol_congr f₁ f₁ u₁ u₂ rfl rfl rfl ht hn
  · exact planeta_rocoso_congr f₁ f₁ u₁ u₂ rfl rfl rfl rfl ht hn
  · exact planeta_gaseoso_congr f₁ f₁ u₁ u₂ rfl rfl rfl ht hn
  · exact planeta_arcilla_congr f₁ f₁ u₁ u₂ rfl rfl rfl ht hn
  · exact planeta_mancha_congr f₁ f₁ u₁ u₂ rfl rfl ht hn

/-- Witness for C4: identical fragment, time and noise but different model
matrices give the same color. -/
theorem fragment_shader_deterministic_witness :
    fragment_shader fragEx uniEx 3 = fragment_shader fragEx uniExOtherModel 3 :=
  fragment_shader_deterministic fragEx fragEx uniEx uniExOtherModel 3 rfl rfl rfl

/-- C8: for every material selector other than the rocky material
(selector 7), the returned color does not depend on fragment.normal: two
fragments identical in every field except the normal yield identical
colors. -/
theorem fragment_shader_normal_independent (s : ℕ) (hs : s ≠ 7) (f₁ f₂ : Fragment)
    (u : Uniforms) (hp : f₁.position = f₂.position) (hd : f₁.depth = f₂.depth)
    (hi : f₁.intensity = f₂.intensity) (hv : f₁.vertex_position = f₂.vertex_position) :
    fragment_shader f₁ u s = fragment_shader f₂ u s := by
  rcases s with _|_|_|_|_|_|_|_|_|_|s
  · exact planeta_neon_congr f₁ f₂ u u hv hi rfl
  · exact planeta_raro_congr f₁ f₂ u u hv hi rfl rfl
  · exact planeta_saturno_congr f₁ f₂ u u hv hi rfl
  · exact planeta_azul_congr f₁ f₂ u u hv hi rfl
  · exact planeta_celular_congr f₁ f₂ u u hv hi rfl rfl
  · exact planeta_mancha_congr f₁ f₂ u u hv hi rfl rfl
  · exact sol_congr f₁ f₂ u u hv hd hi rfl rfl
  · exact absurd rfl hs
  · exact planeta_gaseoso_congr f₁ f₂ u u hv hd hi rfl rfl
  · exact planeta_arcilla_congr f₁ f₂ u u hv hd hi rfl rfl
  · exact planeta_mancha_congr f₁ f₂ u u hv hi rfl rfl

/-- Witness for C8 at selector 0 on two concrete fragments differing only in
the normal. -/
theorem fragment_shader_normal_independent_witness :
    (0 : ℕ) ≠ 7 ∧ fragment_shader fragEx uniEx 0 = fragment_shader fragExOtherNormal uniEx 0 :=
  ⟨by decide,
   fragment_shader_normal_independent 0 (by decide) fragEx fragExOtherNormal uniEx
     rfl rfl rfl rfl⟩

/-- C7: the rocky material multiplies its threshold-banded base color by
0.6 + 0.4 · diffuse, where diffuse = max(0, dot(L, fragment.normal)) for the
fixed light direction L = normalize((1, 1, 0.5)) = (2/3, 2/3, 1/3), and
finally scales the result by fragment.intensity. -/
theorem planeta_rocoso_lighting (fragment : Fragment) (uniforms : Uniforms) :
    planeta_rocoso fragment uniforms =
      (rocoso_base_color fragment uniforms *
        ((0.6 : ℚ) + 0.4 * max 0 (dot (Vec3.normalize ⟨1, 1, 0.5⟩) fragment.normal))) *
        fragment.intensity ∧
    Vec3.normalize ⟨1, 1, 0.5⟩ = (⟨2/3, 2/3, 1/3⟩ : Vec3) := by
  constructor
  · rw [max_comm 0 (dot (Vec3.normalize ⟨1, 1, 0.5⟩) fragment.normal)]
    rfl
  · with_unfolding_all decide

/-- Structural induction principle following the three-at-a-time recursion
of the triangle-grouping step. -/
theorem triple_induction {α : Type} {P : List α → Prop} (l : List α) (h0 : P [])
    (h1 : ∀ a, P [a]) (h2 : ∀ a b, P [a, b])
    (h3 : ∀ a b c rest, P rest → P (a :: b :: c :: rest)) : P l :=
  match l with
  | [] => h0
  | [a] => h1 a
  | [a, b] => h2 a b
  | a :: b :: c :: rest => h3 a b c rest (triple_induction rest h0 h1 h2 h3)

/-- C5: the triangle-grouping step of render collects the transformed
vertices into consecutive disjoint triples in input order, producing exactly
⌊n/3⌋ triangles for an input of length n; a trailing partial triple (1 or 2
leftover vertices) is discarded without error. -/
theorem render_triangle_grouping {α : Type} (vs : List α) :
    (group_triangles vs).length = vs.length / 3 ∧
    ∀ i a b c, vs[3 * i]? = some a → vs[3 * i + 1]? = some b →
      vs[3 * i + 2]? = some c → (group_triangles vs)[i]? = some (a, b, c) := by
  induction vs using triple_induction with
  | h0 =>
    refine ⟨by simp [group_triangles], ?_⟩
    intro i a b c h1 h2 h3
    rw [List.getElem?_eq_none (by simp)] at h3
    exact Option.noConfusion h3
  | h1 x =>
    refine ⟨by simp [group_triangles], ?_⟩
    intro i a b c h1 h2 h3
    rw [List.getElem?_eq_none (by simp)] at h3
    exact Option.noConfusion h3
  | h2 x y =>
    refine ⟨by simp [group_triangles], ?_⟩
    intro i a b c h1 h2 h3
    rw [List.getElem?_eq_none (by simp)] at h3
    exact Option.noConfusion h3
  | h3 a b c rest ih =>
    constructor
    · simp only [group_triangles, List.length_cons, ih.1]
      omega
    · intro i a' b' c' h1 h2 h3
      cases i with
      | zero =>
        simp only [Nat.mul_zero, Nat.zero_add, List.getElem?_cons_zero,
          List.getElem?_cons_succ, Option.some.injEq] at h1 h2 h3
        subst h1
        subst h2
        subst h3
        simp [group_triangles]
      | succ j =>
        have e1 : 3 * (j + 1) = 3 * j + 1 + 1 + 1 := by ring
        have e2 : 3 * (j + 1) + 1 = 3 * j + 1 + 1 + 1 + 1 := by ring
        have e3 : 3 * (j + 1) + 2 = 3 * j + 2 + 1 + 1 + 1 := by ring
        rw [e1] at h1
        rw [e2] at h2
        rw [e3] at h3
        simp only [List.getElem?_cons_succ] at h1 h2 h3
        simp only [group_triangles, List.getElem?_cons_succ]
        exact ih.2 j a' b' c' h1 h2 h3

/-- Witness for C5 on a concrete 7-element list: two full triples, the
trailing vertex discarded, and the second triple is (3, 4, 5). -/
theorem render_triangle_grouping_witness :
    (group_triangles ([0, 1, 2, 3, 4, 5, 6] : List ℕ)).length = 2 ∧
    (group_triangles ([0, 1, 2, 3, 4, 5, 6] : List ℕ))[1]? = some (3, 4, 5) := by
  constructor
  · have h := (render_triangle_grouping ([0, 1, 2, 3, 4, 5, 6] : List ℕ)).1
    simpa using h
  · exact (render_triangle_grouping ([0, 1, 2, 3, 4, 5, 6] : List ℕ)).2 1 3 4 5
      (by simp) (by simp) (by simp)

/-- Transposition does not change the determinant of a 3×3 matrix. -/
theorem Mat3.det_transpose (m : Mat3) : m.transpose.det = m.det := by
  simp only [Mat3.transpose, Mat3.det]
  ring

/-- The adjugate-formula inverse commutes with transposition: the inverse of
the transpose is the transpose of the inverse. -/
theorem Mat3.inverse_transpose (m : Mat3) : m.transpose.inverse = m.inverse.transpose := by
  simp only [Mat3.inverse, Mat3.transpose, Mat3.det, Mat3.mk.injEq]
  refine ⟨?_, ?_, ?_, ?_, ?_, ?_, ?_, ?_, ?_⟩ <;> ring

/-- The identity matrix acts as the identity on vectors. -/
theorem Mat3.identity_mulVec3 (w : Vec3) : Mat3.identity.mulVec3 w = w := by
  obtain ⟨x, y, z⟩ := w
  simp only [Mat3.identity, Mat3.mulVec3, Vec3.mk.injEq]
  refine ⟨?_, ?_, ?_⟩ <;> ring

/-- C6: the transformed normal produced by vertex_shader equals the
inverse-transpose of the upper 3×3 of the model matrix applied to the
original normal whenever that matrix is invertible, and equals the original
(unchanged) normal when it is singular; both paths are total, no error is
signalled. -/
theorem vertex_shader_normal_transform (v : Vertex) (u : Uniforms) :
    ((mat4_to_mat3 u.model_matrix).det ≠ 0 →
      (vertex_shader v u).transformed_normal =
        ((mat4_to_mat3 u.model_matrix).inverse.transpose).mulVec3 v.normal) ∧
    ((mat4_to_mat3 u.model_matrix).det = 0 →
      (vertex_shader v u).transformed_normal = v.normal) := by
  have base : (vertex_shader v u).transformed_normal =
      (((mat4_to_mat3 u.model_matrix).transpose.try_inverse).getD Mat3.identity).mulVec3
        v.normal := rfl
  constructor
  · intro h
    have hdt : ¬(mat4_to_mat3 u.model_matrix).transpose.det = 0 := by
      rw [Mat3.det_transpose]
      exact h
    rw [base]
    simp only [Mat3.try_inverse]
    rw [if_neg hdt]
    simp only [Option.getD_some]
    rw [Mat3.inverse_transpose]
  · intro h
    have hdt : (mat4_to_mat3 u.model_matrix).transpose.det = 0 := by
      rw [Mat3.det_transpose]
      exact h
    rw [base]
    simp only [Mat3.try_inverse]
    rw [if_pos hdt]
    simp only [Option.getD_none]
    exact Mat3.identity_mulVec3 v.normal

/-- Witness for C6: the invertible branch at the identity model matrix, and
the singular branch at an all-zero upper 3×3 block. -/
theorem vertex_shader_normal_transform_witness :
    ((mat4_to_mat3 uniEx.model_matrix).det ≠ 0 ∧
      (vertex_shader vertEx uniEx).transformed_normal =
        ((mat4_to_mat3 uniEx.model_matrix).inverse.transpose).mulVec3 vertEx.normal) ∧
    ((mat4_to_mat3 uniSingular.model_matrix).det = 0 ∧
      (vertex_shader vertEx uniSingular).transformed_normal = vertEx.normal) :=
  ⟨⟨by with_unfolding_all decide,
    (vertex_shader_normal_transform vertEx uniEx).1 (by with_unfolding_all decide)⟩,
   ⟨by with_unfolding_all decide,
    (vertex_shader_normal_transform vertEx uniSingular).2 (by with_unfolding_all decide)⟩⟩

/-- C10: vertex_shader preserves the model-space position, normal, texture
coordinates and base color of its input vertex; only the two transformed
fields are computed anew. -/
theorem vertex_shader_frame (v : Vertex) (u : Uniforms) :
    (vertex_shader v u).position = v.position ∧
    (vertex_shader v u).normal = v.normal ∧
    (vertex_shader v u).tex_coords = v.tex_coords ∧
    (vertex_shader v u).color = v.color :=
  ⟨rfl, rfl, rfl, rfl⟩

/-- A point write does not change the framebuffer width. -/
theorem draw_width (fb : Framebuffer) (w : PointWrite) : (draw fb w).width = fb.width := by
  simp only [draw, Framebuffer.set_current_color, Framebuffer.point]
  split <;> rfl

/-- A point write does not change the framebuffer height. -/
theorem draw_height (fb : Framebuffer) (w : PointWrite) : (draw fb w).height = fb.height := by
  simp only [draw, Framebuffer.set_current_color, Framebuffer.point]
  split <;> rfl

/-- A sequence of point writes does not change the framebuffer width. -/
theorem applyWrites_width (ws : List PointWrite) (fb : Framebuffer) :
    (applyWrites fb ws).width = fb.width := by
  induction ws generalizing fb with
  | nil => rfl
  | cons w rest ih =>
    have e : applyWrites fb (w :: rest) = applyWrites (draw fb w) rest := rfl
    rw [e, ih (draw fb w), draw_width]

/-- A sequence of point writes does not change the framebuffer height. -/
theorem applyWrites_height (ws : List PointWrite) (fb : Framebuffer) :
    (applyWrites fb ws).height = fb.height := by
  induction ws generalizing fb with
  | nil => rfl
  | cons w rest ih =>
    have e : applyWrites fb (w :: rest) = applyWrites (draw fb w) rest := rfl
    rw [e, ih (draw fb w), draw_height]

/-- The effect of one write on an in-bounds observed cell is exactly the
cellStep transition. -/
theorem draw_cell (fb : Framebuffer) (w : PointWrite) (px py : ℕ)
    (hpx : px < fb.width) (hpy : py < fb.height) :
    ((draw fb w).buffer px py, (draw fb w).zbuffer px py) =
      cellStep px py (fb.buffer px py, fb.zbuffer px py) w := by
  obtain ⟨wx, wy, wd, wc⟩ := w
  by_cases hxy : px = wx ∧ py = wy
  · obtain ⟨h1, h2⟩ := hxy
    subst h1
    subst h2
    by_cases hz : zpass wd (fb.zbuffer px py) = true
    · simp [draw, Framebuffer.set_current_color, Framebuffer.point, cellStep, hpx, hpy, hz]
    · simp [draw, Framebuffer.set_current_color, Framebuffer.point, cellStep, hpx, hpy, hz]
  · simp only [cellStep]
    rw [if_neg (by tauto)]
    simp only [draw, Framebuffer.set_current_color, Framebuffer.point]
    split
    · simp [hxy]
    · rfl

/-- A pixel cell already holding depth d₀ is untouched by writes whose
depths are all at least d₀ (strict "closer wins" depth test). -/
theorem cellfold_keep (px py : ℕ) (ws : List PointWrite) (c₀ : ℕ) (d₀ : ℚ)
    (h : ∀ w ∈ ws, w.x = px → w.y = py → d₀ ≤ w.depth) :
    ws.foldl (cellStep px py) (c₀, some d₀) = (c₀, some d₀) := by
  induction ws with
  | nil => rfl
  | cons w rest ih =>
    rw [List.foldl_cons]
    have step : cellStep px py (c₀, some d₀) w = (c₀, some d₀) := by
      simp only [cellStep]
      rw [if_neg]
      rintro ⟨h1, h2, h3⟩
      simp only [zpass, decide_eq_true_eq] at h3
      exact absurd h3 (not_lt.2 (h w (List.mem_cons_self w rest) h1.symm h2.symm))
    rw [step]
    exact ih fun w' hw' hx hy => h w' (List.mem_cons_of_mem w hw') hx hy

/-- Folding the depth-test transition over a write sequence containing a
strictly nearest write to the observed pixel ends in that write's color and
depth, whatever the initial cell state the nearest write can beat. -/
theorem cellfold_min (px py : ℕ) (ws : List PointWrite) (w₀ : PointWrite) (c : ℕ)
    (z : Option ℚ) (hmem : w₀ ∈ ws) (hx : w₀.x = px) (hy : w₀.y = py)
    (hmin : ∀ w ∈ ws, w.x = px → w.y = py → w ≠ w₀ → w₀.depth < w.depth)
    (hz : zpass w₀.depth z = true) :
    ws.foldl (cellStep px py) (c, z) = (w₀.color, some w₀.depth) := by
  revert hmem hmin hz
  induction ws generalizing c z with
  | nil =>
    intro hmem hmin hz
    exact absurd hmem (List.not_mem_nil w₀)
  | cons w rest ih =>
    intro hmem hmin hz
    rw [List.foldl_cons]
    by_cases hw : w = w₀
    · have step : cellStep px py (c, z) w = (w₀.color, some w₀.depth) := by
        simp only [cellStep]
        rw [hw, if_pos ⟨hx.symm, hy.symm, hz⟩]
      rw [step]
      refine cellfold_keep px py rest w₀.color w₀.depth ?_
      intro w' hw' hx' hy'
      rcases eq_or_ne w' w₀ with he | he
      · subst he
        exact le_refl _
      · exact le_of_lt (hmin w' (List.mem_cons_of_mem w hw') hx' hy' he)
    · have hmem' : w₀ ∈ rest := by
        rcases List.mem_cons.mp hmem with h | h
        · exact absurd h.symm hw
        · exact h
      have hmin' : ∀ w' ∈ rest, w'.x = px → w'.y = py → w' ≠ w₀ → w₀.depth < w'.depth :=
        fun w' hw' => hmin w' (List.mem_cons_of_mem w hw')
      by_cases hcond : px = w.x ∧ py = w.y ∧ zpass w.depth z = true
      · have hlt : w₀.depth < w.depth :=
          hmin w (List.mem_cons_self w rest) hcond.1.symm hcond.2.1.symm hw
        have step : cellStep px py (c, z) w = (w.color, some w.depth) := by
          simp only [cellStep]
          rw [if_pos hcond]
        rw [step]
        refine ih w.color (some w.depth) hmem' hmin' ?_
        simp only [zpass, decide_eq_true_eq]
        exact hlt
      · have step : cellStep px py (c, z) w = (c, z) := by
          simp only [cellStep]
          rw [if_neg hcond]
        rw [step]
        exact ih c z hmem' hmin' hz

/-- The observed cell of a framebuffer after a write sequence equals the
fold of the cellStep transition from the initial cell state. -/
theorem applyWrites_cell (ws : List PointWrite) (fb : Framebuffer) (px py : ℕ)
    (hpx : px < fb.width) (hpy : py < fb.height) :
    ((applyWrites fb ws).buffer px py, (applyWrites fb ws).zbuffer px py) =
      ws.foldl (cellStep px py) (fb.buffer px py, fb.zbuffer px py) := by
  induction ws generalizing fb with
  | nil => rfl
  | cons w rest ih =>
    have e : applyWrites fb (w :: rest) = applyWrites (draw fb w) rest := rfl
    rw [e, List.foldl_cons]
    have hw : px < (draw fb w).width := by
      rw [draw_width]
      exact hpx
    have hh : py < (draw fb w).height := by
      rw [draw_height]
      exact hpy
    rw [ih (draw fb w) hw hh, draw_cell fb w px py hpx hpy]

/-- C1: after a clear, for any in-bounds pixel and any write sequence with a
unique nearest-depth write to that pixel, the stored color is that write's
color; in particular two writes of distinct depths to the pixel leave the
color of the nearer write regardless of their order. -/
theorem framebuffer_depth_test_invariant (fb : Framebuffer) (ws : List PointWrite)
    (px py : ℕ) (w₀ : PointWrite) (hpx : px < fb.width) (hpy : py < fb.height)
    (hmem : w₀ ∈ ws) (hx : w₀.x = px) (hy : w₀.y = py)
    (hmin : ∀ w ∈ ws, w.x = px → w.y = py → w ≠ w₀ → w₀.depth < w.depth) :
    (applyWrites fb.clear ws).buffer px py = w₀.color ∧
    ∀ (c₁ c₂ : ℕ) (d₁ d₂ : ℚ), d₁ ≠ d₂ →
      (applyWrites fb.clear [⟨px, py, d₁, c₁⟩, ⟨px, py, d₂, c₂⟩]).buffer px py =
        (applyWrites fb.clear [⟨px, py, d₂, c₂⟩, ⟨px, py, d₁, c₁⟩]).buffer px py := by
  have hpx' : px < fb.clear.width := hpx
  have hpy' : py < fb.clear.height := hpy
  have two_key : ∀ wa wb : PointWrite, wa.x = px → wa.y = py → wb.x = px → wb.y = py →
      wa.depth < wb.depth →
      (applyWrites fb.clear [wa, wb]).buffer px py = wa.color ∧
      (applyWrites fb.clear [wb, wa]).buffer px py = wa.color := by
    intro wa wb hax hay hbx hby hlt
    have hbne : wb ≠ wa := by
      intro he
      rw [he] at hlt
      exact lt_irrefl _ hlt
    constructor
    · have hcell := applyWrites_cell [wa, wb] fb.clear px py hpx' hpy'
      have hminl : ∀ w ∈ [wa, wb], w.x = px → w.y = py → w ≠ wa → wa.depth < w.depth := by
        intro w hwmem hwx hwy hne'
        rcases List.mem_cons.mp hwmem with h | h
        · exact absurd h hne'
        · rcases List.mem_cons.mp h with h' | h'
          · rw [h']
            exact hlt
          · exact absurd h' (List.not_mem_nil w)
      have hfold := cellfold_min px py [wa, wb] wa (fb.clear.buffer px py)
        (fb.clear.zbuffer px py) (List.mem_cons_self wa [wb]) hax hay hminl rfl
      exact congrArg Prod.fst (hcell.trans hfold)
    · have hcell := applyWrites_cell [wb, wa] fb.clear px py hpx' hpy'
      have hminl : ∀ w ∈ [wb, wa], w.x = px → w.y = py → w ≠ wa → wa.depth < w.depth := by
        intro w hwmem hwx hwy hne'
        rcases List.mem_cons.mp hwmem with h | h
        · rw [h]
          exact hlt
        · rcases List.mem_cons.mp h with h' | h'
          · exact absurd h' hne'
          · exact absurd h' (List.not_mem_nil w)
      have hfold := cellfold_min px py [wb, wa] wa (fb.clear.buffer px py)
        (fb.clear.zbuffer px py) (List.mem_cons_of_mem wb (List.mem_cons_self wa []))
        hax hay hminl rfl
      exact congrArg Prod.fst (hcell.trans hfold)
  constructor
  · have hcell := applyWrites_cell ws fb.clear px py hpx' hpy'
    have hfold := cellfold_min px py ws w₀ (fb.clear.buffer px py)
      (fb.clear.zbuffer px py) hmem hx hy hmin rfl
    exact congrArg Prod.fst (hcell.trans hfold)
  · intro c₁ c₂ d₁ d₂ hne
    rcases lt_trichotomy d₁ d₂ with hlt | heq | hlt
    · have h := two_key ⟨px, py, d₁, c₁⟩ ⟨px, py, d₂, c₂⟩ rfl rfl rfl rfl hlt
      rw [h.1, h.2]
    · exact absurd heq hne
    · have h := two_key ⟨px, py, d₂, c₂⟩ ⟨px, py, d₁, c₁⟩ rfl rfl rfl rfl hlt
      rw [h.1, h.2]

/-- Witness for C1: two depth-tested writes to pixel (0, 0) of a cleared
2×2 framebuffer, a farther write (depth 1/2, color 7) then a nearer write
(depth 1/4, color 9); the stored color is 9, the nearer write's. -/
theorem framebuffer_depth_test_invariant_witness :
    (applyWrites fbEx.clear [⟨0, 0, 1/2, 7⟩, ⟨0, 0, 1/4, 9⟩]).buffer 0 0 = 9 :=
  (framebuffer_depth_test_invariant fbEx [⟨0, 0, 1/2, 7⟩, ⟨0, 0, 1/4, 9⟩] 0 0
    ⟨0, 0, 1/4, 9⟩ (by decide) (by decide) (by with_unfolding_all decide) rfl rfl
    (by with_unfolding_all decide)).1

/-- The usize cast of a non-negative integer pixel coordinate is the
coordinate itself. -/
theorem toUsize_natCast (n : ℕ) : toUsize (n : ℚ) = n := by
  simp [toUsize]

/-- A produced per-pixel candidate sits at its integer pixel coordinates and
passes the inside test there. -/
theorem raster_candidate_some (v1 v2 v3 : Vertex) (x y : ℕ) (frag : Fragment)
    (h : raster_candidate v1 v2 v3 x y = some frag) :
    frag.position = ⟨(x : ℚ), (y : ℚ)⟩ ∧
    covered ⟨v1.transformed_position.x, v1.transformed_position.y⟩
      ⟨v2.transformed_position.x, v2.transformed_position.y⟩
      ⟨v3.transformed_position.x, v3.transformed_position.y⟩
      ⟨(x : ℚ), (y : ℚ)⟩ = true := by
  simp only [raster_candidate] at h
  split at h
  · constructor
    · rw [← Option.some.inj h]
    · assumption
  · exact Option.noConfusion h

/-- Every fragment emitted by the rasterizer sits at integer pixel
coordinates where the inside test of the triangle holds. -/
theorem triangle_mem (v1 v2 v3 : Vertex) (frag : Fragment)
    (h : frag ∈ triangle v1 v2 v3) :
    ∃ x y : ℕ, frag.position = ⟨(x : ℚ), (y : ℚ)⟩ ∧
      covered ⟨v1.transformed_position.x, v1.transformed_position.y⟩
        ⟨v2.transformed_position.x, v2.transformed_position.y⟩
        ⟨v3.transformed_position.x, v3.transformed_position.y⟩
        ⟨(x : ℚ), (y : ℚ)⟩ = true := by
  simp only [triangle] at h
  split at h
  · exact absurd h (List.not_mem_nil frag)
  · rw [List.mem_flatMap] at h
    obtain ⟨dx, _, h⟩ := h
    rw [List.mem_filterMap] at h
    obtain ⟨dy, _, heq⟩ := h
    exact ⟨_, _, raster_candidate_some v1 v2 v3 _ _ frag heq⟩

/-- A fold whose step fixes the accumulator on every list element returns
the accumulator. -/
theorem foldl_skip {β γ : Type} (f : β → γ → β) (acc : β) (l : List γ)
    (h : ∀ a ∈ l, f acc a = acc) : l.foldl f acc = acc := by
  induction l with
  | nil => rfl
  | cons q qs ih =>
    rw [List.foldl_cons, h q (List.mem_cons_self q qs)]
    exact ih fun a ha => h a (List.mem_cons_of_mem q ha)

/-- C2 (amended): for a triangle whose rasterized footprint contains no
in-bounds pixel — no pixel sample point inside the screen bounds passes the
triangle's inside test — render performs zero framebuffer writes: the
framebuffer is returned unchanged. -/
theorem render_offscreen_footprint_no_writes (fb : Framebuffer) (u : Uniforms)
    (v1 v2 v3 : Vertex) (sel : ℕ)
    (h : ∀ x : ℕ, x < fb.width → ∀ y : ℕ, y < fb.height →
      covered
        ⟨(vertex_shader v1 u).transformed_position.x,
         (vertex_shader v1 u).transformed_position.y⟩
        ⟨(vertex_shader v2 u).transformed_position.x,
         (vertex_shader v2 u).transformed_position.y⟩
        ⟨(vertex_shader v3 u).transformed_position.x,
         (vertex_shader v3 u).transformed_position.y⟩
        ⟨(x : ℚ), (y : ℚ)⟩ = false) :
    render fb u [v1, v2, v3] sel = fb := by
  simp only [render, List.map_cons, List.map_nil, group_triangles, List.flatMap_cons,
    List.flatMap_nil, List.append_nil]
  refine foldl_skip _ _ _ ?_
  intro frag hfrag
  obtain ⟨x, y, hpos, hcov⟩ :=
    triangle_mem (vertex_shader v1 u) (vertex_shader v2 u) (vertex_shader v3 u) frag hfrag
  rw [hpos]
  dsimp only
  rw [toUsize_natCast, toUsize_natCast]
  rw [if_neg]
  rintro ⟨h1, h2⟩
  have hfalse := h x h1 y h2
  rw [hfalse] at hcov
  exact Bool.noConfusion hcov

/-- Witness for C2 (amended): a concrete triangle fully beyond the right and
bottom screen edges covers no in-bounds pixel; render leaves the cleared
2×2 framebuffer unchanged. -/
theorem render_offscreen_footprint_no_writes_witness :
    (∀ x : ℕ, x < fbEx.width → ∀ y : ℕ, y < fbEx.height →
      covered
        ⟨(vertex_shader vertFarA uniEx).transformed_position.x,
         (vertex_shader vertFarA uniEx).transformed_position.y⟩
        ⟨(vertex_shader vertFarB uniEx).transformed_position.x,
         (vertex_shader vertFarB uniEx).transformed_position.y⟩
        ⟨(vertex_shader vertFarC uniEx).transformed_position.x,
         (vertex_shader vertFarC uniEx).transformed_position.y⟩
        ⟨(x : ℚ), (y : ℚ)⟩ = false) ∧
    render fbEx uniEx [vertFarA, vertFarB, vertFarC] 0 = fbEx :=
  ⟨by with_unfolding_all decide,
   render_offscreen_footprint_no_writes fbEx uniEx vertFarA vertFarB vertFarC 0
     (by with_unfolding_all decide)⟩

/-- Counterexample to C2 as stated: a concrete triangle all three of whose
screen-space vertices lie strictly outside the 2×2 screen bounds, yet render
changes the color stored at the in-bounds pixel (0, 0) — the triangle
surrounds that pixel, so a framebuffer write occurs. -/
theorem render_offscreen_vertices_counterexample :
    (¬ (0 ≤ (vertex_shader vertA uniEx).transformed_position.x ∧
        (vertex_shader vertA uniEx).transformed_position.x < (fbEx.width : ℚ) ∧
        0 ≤ (vertex_shader vertA uniEx).transformed_position.y ∧
        (vertex_shader vertA uniEx).transformed_position.y < (fbEx.height : ℚ))) ∧
    (¬ (0 ≤ (vertex_shader vertB uniEx).transformed_position.x ∧
        (vertex_shader vertB uniEx).transformed_position.x < (fbEx.width : ℚ) ∧
        0 ≤ (vertex_shader vertB uniEx).transformed_position.y ∧
        (vertex_shader vertB uniEx).transformed_position.y < (fbEx.height : ℚ))) ∧
    (¬ (0 ≤ (vertex_shader vertC uniEx).transformed_position.x ∧
        (vertex_shader vertC uniEx).transformed_position.x < (fbEx.width : ℚ) ∧
        0 ≤ (vertex_shader vertC uniEx).transformed_position.y ∧
        (vertex_shader vertC uniEx).transformed_position.y < (fbEx.height : ℚ))) ∧
    (render fbEx uniEx [vertA, vertB, vertC] 2).buffer 0 0 ≠ fbEx.buffer 0 0 := by
  with_unfolding_all decide

end Renderer
